import Mathlib

/-!
Verification of the imposition layout engine of the zine-prep repository.

The definitions below are shallow embeddings of the TypeScript sources:
layout generators are pure functions from a source page count to layout
data; page dimensions are modelled as rationals; fallible resolution is
modelled with Except. Page numbers are 1-indexed naturals; a slot content
of none models the null (blank) slot.
-/

namespace ZinePrep

/-! ## Data model (src/lib/types.ts) -/

/-- One face of an imposed sheet: the left and right half contents.
none models the null blank marker of the source. -/
structure ImpositionPage where
  left : Option Nat
  right : Option Nat
deriving DecidableEq, Repr

/-- A physical sheet: front and back faces (src/lib/types.ts). -/
structure ImpositionSheet where
  front : ImpositionPage
  back : ImpositionPage
deriving DecidableEq, Repr

/-- The full saddle-stitch layout (src/lib/types.ts). -/
structure ImpositionLayout where
  sheets : List ImpositionSheet
  totalPages : Nat
  paddedPages : Nat
deriving DecidableEq, Repr

/-! ## Padding and the saddle-stitch generator (src/lib/utils/imposition.ts) -/

/-- Embeds padToMultipleOf4: Math.ceil(pageCount / 4) * 4, with the real
ceiling modelled on the rationals. -/
def padToMultipleOf4 (pageCount : Nat) : Nat :=
  ⌈(pageCount : ℚ) / 4⌉₊ * 4

/-- The rational ceiling of a natural divided by 4, as natural division. -/
lemma nat_ceil_div4 (a : Nat) : ⌈(a : ℚ) / 4⌉₊ = (a + 3) / 4 := by
  rcases Nat.eq_zero_or_pos a with rfl | ha
  · simp
  · have hk : (a + 3) / 4 ≠ 0 := by omega
    rw [Nat.ceil_eq_iff hk]
    constructor
    · rw [lt_div_iff₀ (by norm_num : (0 : ℚ) < 4)]
      have : ((a + 3) / 4 - 1) * 4 < a := by omega
      exact_mod_cast this
    · rw [div_le_iff₀ (by norm_num : (0 : ℚ) < 4)]
      have : a ≤ ((a + 3) / 4) * 4 := by omega
      exact_mod_cast this

/-- The rational ceiling of a natural divided by 2, as natural division. -/
lemma nat_ceil_div2 (a : Nat) : ⌈(a : ℚ) / 2⌉₊ = (a + 1) / 2 := by
  rcases Nat.eq_zero_or_pos a with rfl | ha
  · simp
  · have hk : (a + 1) / 2 ≠ 0 := by omega
    rw [Nat.ceil_eq_iff hk]
    constructor
    · rw [lt_div_iff₀ (by norm_num : (0 : ℚ) < 2)]
      have : ((a + 1) / 2 - 1) * 2 < a := by omega
      exact_mod_cast this
    · rw [div_le_iff₀ (by norm_num : (0 : ℚ) < 2)]
      have : a ≤ ((a + 1) / 2) * 2 := by omega
      exact_mod_cast this

lemma padToMultipleOf4_eq (n : Nat) : padToMultipleOf4 n = (n + 3) / 4 * 4 := by
  unfold padToMultipleOf4
  rw [nat_ceil_div4]

/-- Embeds calculateImposition (src/lib/utils/imposition.ts): for each
0-indexed sheet i, frontLeft = padded - 2i, frontRight = 1 + 2i,
backLeft = 2 + 2i, backRight = padded - 1 - 2i, any page number above the
original count replaced by the blank marker. -/
def calculateImposition (originalPageCount : Nat) : ImpositionLayout :=
  let paddedPages := padToMultipleOf4 originalPageCount
  let numSheets := paddedPages / 4
  let sheets := (List.range numSheets).map (fun i =>
    let frontLeft := paddedPages - 2 * i
    let frontRight := 1 + 2 * i
    let backLeft := 2 + 2 * i
    let backRight := paddedPages - 1 - 2 * i
    { front := { left := if frontLeft ≤ originalPageCount then some frontLeft else none
                 right := if frontRight ≤ originalPageCount then some frontRight else none }
      back := { left := if backLeft ≤ originalPageCount then some backLeft else none
                right := if backRight ≤ originalPageCount then some backRight else none }
      : ImpositionSheet })
  { sheets := sheets, totalPages := originalPageCount, paddedPages := paddedPages }

/-- The slot contents of a layout flattened in front-left, front-right,
back-left, back-right order, sheet by sheet. -/
def slotContents (layout : ImpositionLayout) : List (Option Nat) :=
  layout.sheets.flatMap (fun s => [s.front.left, s.front.right, s.back.left, s.back.right])

/-! ## The inverse resolver (src/lib/utils/formats/un-impose.ts) -/

/-- Embeds reverseImposition: regenerates the imposed order of linear page
numbers, front-left, front-right, back-left, back-right per sheet. -/
def reverseImposition (numLinearPages : Nat) : List Nat :=
  let numSheets := numLinearPages / 4
  (List.range numSheets).flatMap (fun i =>
    [numLinearPages - 2 * i, 1 + 2 * i, 2 + 2 * i, numLinearPages - 1 - 2 * i])

/-- Membership in the regenerated imposed order: exactly the pages 1..n
occur, when n is a multiple of 4. -/
lemma mem_reverseImposition {n p : Nat} (h4 : 4 ∣ n) :
    p ∈ reverseImposition n ↔ 1 ≤ p ∧ p ≤ n := by
  obtain ⟨s, rfl⟩ := h4
  unfold reverseImposition
  have hs : 4 * s / 4 = s := by omega
  rw [hs]
  simp only [List.mem_flatMap, List.mem_range, List.mem_cons, List.not_mem_nil, or_false]
  constructor
  · rintro ⟨i, hi, h⟩
    omega
  · rintro ⟨h1, h2⟩
    rcases Nat.even_or_odd p with ⟨k, hk⟩ | ⟨k, hk⟩
    · by_cases hks : k ≤ s
      · exact ⟨k - 1, by omega, by omega⟩
      · exact ⟨2 * s - k, by omega, by omega⟩
    · by_cases hks : k < s
      · exact ⟨k, by omega, by omega⟩
      · exact ⟨2 * s - 1 - k, by omega, by omega⟩

/-- The regenerated imposed order has no duplicates when n is a multiple
of 4. -/
lemma nodup_reverseImposition {n : Nat} (h4 : 4 ∣ n) :
    (reverseImposition n).Nodup := by
  obtain ⟨s, rfl⟩ := h4
  unfold reverseImposition
  have hs : 4 * s / 4 = s := by omega
  rw [hs]
  rw [List.nodup_flatMap]
  constructor
  · intro i hi
    rw [List.mem_range] at hi
    simp only [List.nodup_cons, List.mem_cons, List.not_mem_nil, or_false, List.nodup_nil,
      and_true, not_or, not_false_eq_true]
    omega
  · rw [List.pairwise_iff_getElem]
    intro i j hi hj hij
    simp only [List.length_range] at hi hj
    simp only [List.getElem_range]
    intro a ha hb
    simp only [Function.onFun, List.mem_cons, List.not_mem_nil, or_false] at ha hb
    omega

/-- The slot sequence of a layout equals the regenerated imposed order of
the padded count with the blank guard applied pointwise. -/
lemma slotContents_calculateImposition (n : Nat) :
    slotContents (calculateImposition n) =
      (reverseImposition (padToMultipleOf4 n)).map
        (fun x => if x ≤ n then some x else none) := by
  unfold slotContents calculateImposition reverseImposition
  simp only [List.flatMap_map, List.map_flatMap, List.map_cons, List.map_nil]

/-- Embeds the pageMap built by the un-impose process: each imposed-order
entry is assigned its imposed face index (i / 2) and half (i % 2, with 0
the left half); a later assignment to the same linear page overwrites an
earlier one, hence the search over the reversed enumeration. -/
def pageMapGet (imposedOrder : List Nat) (linearPage : Nat) : Option (Nat × Nat) :=
  (imposedOrder.enum.reverse.find? (fun iv => iv.2 == linearPage)).map
    (fun iv => (iv.1 / 2, iv.1 % 2))

/-- The linear page printed on the given half of the given imposed face,
for a document imposed in the given order. -/
def imposedHalfContent (imposedOrder : List Nat) (face half : Nat) : Option Nat :=
  imposedOrder[2 * face + half]?

/-- Embeds the extraction loop of the un-impose process: for each linear
page 1..linearPageCount in increasing order, look up its imposed face and
half and read the page printed there; none models a page skipped because
the map has no entry for it. -/
def unImposeExtract (linearPageCount : Nat) : List (Option Nat) :=
  (List.range' 1 linearPageCount).map (fun p =>
    (pageMapGet (reverseImposition linearPageCount) p).bind
      (fun fs => imposedHalfContent (reverseImposition linearPageCount) fs.1 fs.2))

/-- Extraction recovers exactly the linear order 1..n when n is a multiple
of 4. -/
lemma unImposeExtract_eq {n : Nat} (h4 : 4 ∣ n) :
    unImposeExtract n = (List.range' 1 n).map some := by
  unfold unImposeExtract
  apply List.map_congr_left
  intro p hp
  rw [List.mem_range'_1] at hp
  have hmem : p ∈ reverseImposition n := (mem_reverseImposition h4).mpr ⟨hp.1, by omega⟩
  have hex : ∃ x ∈ (reverseImposition n).enum.reverse, (x.2 == p) = true := by
    obtain ⟨i, hi, hgi⟩ := List.mem_iff_getElem.mp hmem
    refine ⟨(i, p), ?_, by simp⟩
    rw [List.mem_reverse, List.mk_mem_enum_iff_getElem?]
    exact List.getElem?_eq_some_iff.mpr ⟨hi, hgi⟩
  obtain ⟨iv, hfind⟩ := Option.isSome_iff_exists.mp (List.find?_isSome.mpr hex)
  have hp2 : iv.2 = p := by simpa using List.find?_some hfind
  have hmem2 : iv ∈ (reverseImposition n).enum :=
    List.mem_reverse.mp (List.mem_of_find?_eq_some hfind)
  have hgef : (reverseImposition n)[iv.1]? = some iv.2 :=
    List.mem_enum_iff_getElem?.mp hmem2
  unfold pageMapGet imposedHalfContent
  rw [hfind]
  simp only [Option.map_some', Option.some_bind]
  have hidx : 2 * (iv.1 / 2) + iv.1 % 2 = iv.1 := by omega
  rw [hidx, hgef, hp2]

/-- Every page 1..n occupies exactly one slot of the saddle-stitch layout. -/
lemma count_slotContents_eq_one {n p : Nat} (hp1 : 1 ≤ p) (hpn : p ≤ n) :
    (slotContents (calculateImposition n)).count (some p) = 1 := by
  have h4 : 4 ∣ padToMultipleOf4 n := by rw [padToMultipleOf4_eq]; omega
  have hpadn : n ≤ padToMultipleOf4 n := by rw [padToMultipleOf4_eq]; omega
  rw [slotContents_calculateImposition, List.count_eq_countP, List.countP_map]
  have hpred : ∀ x ∈ reverseImposition (padToMultipleOf4 n),
      ((((if x ≤ n then some x else none) == some p) = true) ↔ ((x == p) = true)) := by
    intro x _
    by_cases hxn : x ≤ n
    · simp [hxn]
    · simp only [if_neg hxn, beq_iff_eq, reduceCtorEq, false_iff]
      omega
  calc (reverseImposition (padToMultipleOf4 n)).countP
        (fun x => ((fun y => if y ≤ n then some y else none) x == some p))
      = (reverseImposition (padToMultipleOf4 n)).countP (fun x => x == p) :=
        List.countP_congr hpred
    _ = (reverseImposition (padToMultipleOf4 n)).count p := (List.count_eq_countP p _).symm
    _ = 1 := List.count_eq_one_of_mem (nodup_reverseImposition h4)
        ((mem_reverseImposition h4).mpr ⟨hp1, le_trans hpn hpadn⟩)

/-- C1: for a positive multiple of 4, the imposed order regenerated by the
un-impose resolver equals the slot sequence of the forward saddle-stitch
imposition, it contains every linear page 1..n exactly once, and the
extraction loop recovers the identity order 1, 2, ..., n. -/
theorem c1_unimpose_round_trip (n : Nat) (_hpos : 0 < n) (h4 : 4 ∣ n) :
    slotContents (calculateImposition n) = (reverseImposition n).map some ∧
    (reverseImposition n).Nodup ∧
    (∀ p, p ∈ reverseImposition n ↔ 1 ≤ p ∧ p ≤ n) ∧
    unImposeExtract n = (List.range' 1 n).map some := by
  have hpad : padToMultipleOf4 n = n := by rw [padToMultipleOf4_eq]; omega
  refine ⟨?_, nodup_reverseImposition h4, fun p => mem_reverseImposition h4,
    unImposeExtract_eq h4⟩
  rw [slotContents_calculateImposition, hpad]
  apply List.map_congr_left
  intro x hx
  exact if_pos ((mem_reverseImposition h4).mp hx).2

/-- Witness for C1 at n = 8. -/
theorem c1_unimpose_round_trip_witness :
    (0 < 8 ∧ 4 ∣ 8) ∧
    (slotContents (calculateImposition 8) = (reverseImposition 8).map some ∧
     (reverseImposition 8).Nodup ∧
     (∀ p, p ∈ reverseImposition 8 ↔ 1 ≤ p ∧ p ≤ 8) ∧
     unImposeExtract 8 = (List.range' 1 8).map some) :=
  ⟨by decide, c1_unimpose_round_trip 8 (by decide) (by decide)⟩

/-! ## Half-fold (src/lib/utils/formats/half-fold.ts) -/

/-- Embeds the drawHalf guard: the draw is skipped (blank) when the page
number is the null marker or exceeds the source page count. -/
def drawHalfContent (pageCount : Nat) (pageNum : Option Nat) : Option Nat :=
  match pageNum with
  | none => none
  | some p => if pageCount < p then none else some p

/-- The half-fold draw sequence: front face holds page 4 left and page 1
right, back face holds page 2 left and page 3 right. -/
def halfFoldSlots (pageCount : Nat) : List (Option Nat) :=
  [drawHalfContent pageCount (some 4), drawHalfContent pageCount (some 1),
   drawHalfContent pageCount (some 2), drawHalfContent pageCount (some 3)]

/-! ## Mini-zine (src/lib/utils/formats/mini-zine.ts) -/

/-- A panel position: column 0-3 from the left, row 0 bottom or 1 top, and
the 180 degree rotation flag. -/
structure PanelPosition where
  col : Nat
  row : Nat
  rotate : Bool
deriving DecidableEq, Repr

/-- The fixed front-side lookup table, page number to panel position. -/
def FRONT_LAYOUT : List (Nat × PanelPosition) :=
  [(4, ⟨0, 1, true⟩), (5, ⟨1, 1, false⟩), (8, ⟨2, 1, true⟩), (1, ⟨3, 1, false⟩)]

/-- The fixed back-side lookup table, page number to panel position. -/
def BACK_LAYOUT : List (Nat × PanelPosition) :=
  [(2, ⟨0, 1, false⟩), (7, ⟨1, 1, true⟩), (6, ⟨2, 1, false⟩), (3, ⟨3, 1, true⟩)]

/-- The front-side entries actually drawn: entries whose page number
exceeds the source page count are skipped (left blank). -/
def miniZineFrontDrawn (pageCount : Nat) : List (Nat × PanelPosition) :=
  FRONT_LAYOUT.filter (fun e => decide (e.1 ≤ pageCount))

/-- The back-side entries actually drawn. -/
def miniZineBackDrawn (pageCount : Nat) : List (Nat × PanelPosition) :=
  BACK_LAYOUT.filter (fun e => decide (e.1 ≤ pageCount))

/-- All page numbers drawn on the mini-zine sheet, front then back. -/
def miniZineDrawnPages (pageCount : Nat) : List Nat :=
  (miniZineFrontDrawn pageCount ++ miniZineBackDrawn pageCount).map Prod.fst

/-- The page number and rotation drawn at a given column of a face. -/
def panelAt (drawn : List (Nat × PanelPosition)) (c : Nat) : Option (Nat × Bool) :=
  (drawn.find? (fun e => e.2.col == c)).map (fun e => (e.1, e.2.rotate))

/-! ## Accordion (second processor in mini-zine.ts) -/

/-- Which side of the output sheet an accordion panel is drawn on. -/
inductive AccFace
  | front
  | back
deriving DecidableEq, Repr

/-- One accordion drawPanel call: output face, 0-indexed panel position,
the panel count the face is divided into, the 0-indexed source page, and
the 180 degree rotation flag. -/
structure AccPanel where
  face : AccFace
  panelIndex : Nat
  totalPanels : Nat
  pageIndex : Nat
  rotated : Bool
deriving DecidableEq, Repr

/-- Embeds the drawPanel guard: the call returns without drawing when the
0-indexed page is at or beyond the source page count. -/
def drawPanelGuard (pageCount : Nat) (p : AccPanel) : List AccPanel :=
  if p.pageIndex < pageCount then [p] else []

/-- Embeds the accordion layout loops: up to 4 pages all on a single front
face with panel i holding page index i rotated on odd i; above 4 pages,
the front holds page indices 0-3 and the back holds the rest in reverse
panel order, rotated on even loop index. -/
def accordionPlacements (pageCount : Nat) : List AccPanel :=
  if pageCount ≤ 4 then
    (List.range pageCount).flatMap (fun i =>
      drawPanelGuard pageCount ⟨.front, i, pageCount, i, i % 2 == 1⟩)
  else
    (List.range (min 4 pageCount)).flatMap (fun i =>
      drawPanelGuard pageCount ⟨.front, i, 4, i, i % 2 == 1⟩) ++
    (List.range (pageCount - 4)).flatMap (fun i =>
      drawPanelGuard pageCount
        ⟨.back, pageCount - 4 - 1 - i, pageCount - 4, 4 + i, i % 2 == 0⟩)

/-! ## Quarter-booklet (src/lib/utils/formats/quarter-booklet.ts) -/

/-- quarter-booklet.ts repeats padToMultipleOf4 verbatim. -/
def quarterPadToMultipleOf4 (pageCount : Nat) : Nat :=
  ⌈(pageCount : ℚ) / 4⌉₊ * 4

/-- quarter-booklet.ts repeats calculateImposition verbatim; the repeated
body is definitionally the shared one. -/
def quarterCalculateImposition (originalPageCount : Nat) : ImpositionLayout :=
  let paddedPages := quarterPadToMultipleOf4 originalPageCount
  let numSheets := paddedPages / 4
  let sheets := (List.range numSheets).map (fun i =>
    let frontLeft := paddedPages - 2 * i
    let frontRight := 1 + 2 * i
    let backLeft := 2 + 2 * i
    let backRight := paddedPages - 1 - 2 * i
    { front := { left := if frontLeft ≤ originalPageCount then some frontLeft else none
                 right := if frontRight ≤ originalPageCount then some frontRight else none }
      back := { left := if backLeft ≤ originalPageCount then some backLeft else none
                right := if backRight ≤ originalPageCount then some backRight else none }
      : ImpositionSheet })
  { sheets := sheets, totalPages := originalPageCount, paddedPages := paddedPages }

lemma quarterCalculateImposition_eq (n : Nat) :
    quarterCalculateImposition n = calculateImposition n := rfl

/-- A quadrant of the physical quarter-booklet sheet. -/
inductive Quadrant
  | TL
  | TR
  | BL
  | BR
deriving DecidableEq, Repr

/-- Front or back of a physical sheet. -/
inductive SheetFace
  | front
  | back
deriving DecidableEq, Repr

/-- Left or right sub-half of a quadrant. -/
inductive HalfSide
  | left
  | right
deriving DecidableEq, Repr

/-- One drawMiniPage call of the quarter-booklet process. -/
structure MiniPlacement where
  content : Option Nat
  physSheet : Nat
  face : SheetFace
  quadrant : Quadrant
  position : HalfSide
deriving DecidableEq, Repr

/-- The four drawMiniPage calls issued for one mini-sheet: its front left
and right halves onto the physical front face, its back halves onto the
physical back face, all in the given quadrant. -/
def placeMiniSheet (s : ImpositionSheet) (physSheet : Nat) (q : Quadrant) :
    List MiniPlacement :=
  [⟨s.front.left, physSheet, .front, q, .left⟩,
   ⟨s.front.right, physSheet, .front, q, .right⟩,
   ⟨s.back.left, physSheet, .back, q, .left⟩,
   ⟨s.back.right, physSheet, .back, q, .right⟩]

/-- Embeds Math.ceil(miniSheetCount / 2). -/
def physicalSheetCount (miniSheetCount : Nat) : Nat :=
  ⌈(miniSheetCount : ℚ) / 2⌉₊

/-- Embeds the physical-sheet composition loop of the quarter-booklet
process: physical sheet physSheet takes mini-sheet physSheet * 2 in its
top-left quadrant and mini-sheet physSheet * 2 + 1 in its bottom-left
quadrant, each guarded by the mini-sheet index being in range. -/
def quarterPlacements (pageCount : Nat) : List MiniPlacement :=
  let layout := quarterCalculateImposition pageCount
  let miniSheetCount := layout.sheets.length
  (List.range (physicalSheetCount miniSheetCount)).flatMap (fun physSheet =>
    ((layout.sheets[physSheet * 2]?).map
      (fun sheet1 => placeMiniSheet sheet1 physSheet .TL)).getD [] ++
    ((layout.sheets[physSheet * 2 + 1]?).map
      (fun sheet2 => placeMiniSheet sheet2 physSheet .BL)).getD [])

/-- The quadrant the specification assigns to mini-sheet k: top row for
even k, bottom row for odd k. -/
def expectedMiniSheetPlaces (layout : ImpositionLayout) (k : Nat) :
    List MiniPlacement :=
  ((layout.sheets[k]?).map
    (fun s => placeMiniSheet s (k / 2) (if k % 2 = 0 then .TL else .BL))).getD []

/-! ## Un-impose validation (src/lib/utils/formats/un-impose.ts) -/

/-- The error kinds surfaced by the un-impose process. -/
inductive UnImposeError
  | emptyDocument
  | formatMismatch
  | malformedImposition
deriving DecidableEq, Repr

/-- Embeds the validation prefix of the un-impose process, in source
order: an empty document errors first, then a portrait first page (width
strictly below height), then a derived linear page count that is not a
multiple of 4; only then are output pages produced, by the extraction
loop. -/
def unImposeResolve (imposedPageCount : Nat) (width height : ℚ) :
    Except UnImposeError (List (Option Nat)) :=
  if imposedPageCount = 0 then .error .emptyDocument
  else if width < height then .error .formatMismatch
  else
    let linearPageCount := imposedPageCount * 2
    if linearPageCount % 4 ≠ 0 then .error .malformedImposition
    else .ok (unImposeExtract linearPageCount)

/-! ## Mini-zine drawing geometry (mini-zine.ts) -/

def LETTER_WIDTH : ℚ := 8.5 * 72

def LETTER_HEIGHT : ℚ := 11 * 72

def PANEL_WIDTH : ℚ := LETTER_WIDTH / 4

def PANEL_HEIGHT : ℚ := LETTER_HEIGHT / 2

/-- A drawPage call: origin, drawn size, and rotation flag. -/
structure DrawCall where
  x : ℚ
  y : ℚ
  width : ℚ
  height : ℚ
  rotated : Bool
deriving DecidableEq, Repr

/-- Embeds the mini-zine panel drawing: scale to fit the panel, center in
the panel, and for a rotated panel shift the origin by the drawn size
before the 180 degree rotation. -/
def miniZineDrawCall (pos : PanelPosition) (srcWidth srcHeight : ℚ) : DrawCall :=
  let scale := min (PANEL_WIDTH / srcWidth) (PANEL_HEIGHT / srcHeight)
  let scaledWidth := srcWidth * scale
  let scaledHeight := srcHeight * scale
  let panelX := (pos.col : ℚ) * PANEL_WIDTH
  let panelY := (pos.row : ℚ) * PANEL_HEIGHT
  let x := panelX + (PANEL_WIDTH - scaledWidth) / 2
  let y := panelY + (PANEL_HEIGHT - scaledHeight) / 2
  if pos.rotate then
    { x := x + scaledWidth, y := y + scaledHeight,
      width := scaledWidth, height := scaledHeight, rotated := true }
  else
    { x := x, y := y, width := scaledWidth, height := scaledHeight, rotated := false }

/-- The vertical extent covered by a draw call: content rotated 180
degrees about its origin extends downward and leftward from the origin. -/
def drawCallYInterval (d : DrawCall) : ℚ × ℚ :=
  if d.rotated then (d.y - d.height, d.y) else (d.y, d.y + d.height)

/-! ## Pairing helpers -/

/-- Walking indices two at a time over half the range visits every index
once, provided the body vanishes beyond the range. -/
lemma range_pair_flatMap {β : Type} :
    ∀ (m : Nat) (f : Nat → List β), (∀ k, m ≤ k → f k = []) →
      (List.range ((m + 1) / 2)).flatMap (fun ps => f (ps * 2) ++ f (ps * 2 + 1)) =
        (List.range m).flatMap f := by
  intro m
  induction m using Nat.strong_induction_on with
  | _ m ih =>
    intro f hf
    rcases m with _ | _ | m
    · simp
    · have h1 : (1 + 1) / 2 = 1 := by norm_num
      have hf1 : f 1 = [] := hf 1 (by omega)
      have hr : List.range 1 = [0] := by decide
      rw [h1, hr]
      simp [hf1]
    · have h2 : (m + 2 + 1) / 2 = (m + 1) / 2 + 1 := by omega
      rw [h2, List.range_succ_eq_map, List.flatMap_cons, List.flatMap_map]
      have hfe : (fun ps => f (Nat.succ ps * 2) ++ f (Nat.succ ps * 2 + 1)) =
          (fun ps => f (ps * 2 + 2) ++ f (ps * 2 + 1 + 2)) := by
        funext ps
        rw [show Nat.succ ps * 2 = ps * 2 + 2 by omega,
          show ps * 2 + 2 + 1 = ps * 2 + 1 + 2 by omega]
      have hih := ih m (by omega) (fun k => f (k + 2)) (fun k hk => hf (k + 2) (by omega))
      rw [hfe, hih]
      rw [List.range_succ_eq_map, List.flatMap_cons, List.flatMap_map,
        List.range_succ_eq_map, List.flatMap_cons, List.flatMap_map]
      simp only [Nat.zero_mul, Nat.zero_add, Nat.succ_eq_add_one, List.append_assoc,
        show ∀ a : Nat, a + 1 + 1 = a + 2 from fun a => rfl]

/-- Flattening by index over the range of a list length is flattening the
list itself. -/
lemma range_getElem_flatMap {α β : Type} (L : List α) (f : α → List β) :
    (List.range L.length).flatMap (fun k => ((L[k]?).map f).getD []) = L.flatMap f := by
  induction L with
  | nil => simp
  | cons a t ih =>
    rw [List.length_cons, List.range_succ_eq_map, List.flatMap_cons, List.flatMap_map]
    simp only [List.getElem?_cons_zero, Option.map_some', Option.getD_some,
      List.getElem?_cons_succ, List.flatMap_cons]
    rw [show (fun ps => ((t[ps]?).map f).getD []) = fun k => ((t[k]?).map f).getD [] from rfl]
    rw [ih]

/-- The quarter-booklet composition loop is, mini-sheet by mini-sheet, the
mapping of mini-sheet k to physical sheet k / 2, quadrant top row when k
is even and bottom row when k is odd. -/
lemma quarterPlacements_eq_expected (n : Nat) :
    quarterPlacements n =
      (List.range (calculateImposition n).sheets.length).flatMap
        (expectedMiniSheetPlaces (calculateImposition n)) := by
  unfold quarterPlacements physicalSheetCount
  dsimp only
  rw [quarterCalculateImposition_eq, nat_ceil_div2]
  have hstep : (fun physSheet =>
      (((calculateImposition n).sheets[physSheet * 2]?).map
        (fun sheet1 => placeMiniSheet sheet1 physSheet .TL)).getD [] ++
      (((calculateImposition n).sheets[physSheet * 2 + 1]?).map
        (fun sheet2 => placeMiniSheet sheet2 physSheet .BL)).getD []) =
      (fun ps => expectedMiniSheetPlaces (calculateImposition n) (ps * 2) ++
        expectedMiniSheetPlaces (calculateImposition n) (ps * 2 + 1)) := by
    funext ps
    unfold expectedMiniSheetPlaces
    simp only [show ps * 2 / 2 = ps from by omega, show (ps * 2 + 1) / 2 = ps from by omega,
      show (ps * 2) % 2 = 0 from by omega, show (ps * 2 + 1) % 2 = 1 from by omega,
      reduceIte, Nat.one_ne_zero]
  rw [hstep]
  exact range_pair_flatMap _ _
    (fun k hk => by
      unfold expectedMiniSheetPlaces
      rw [List.getElem?_eq_none hk]
      rfl)

/-- The contents drawn by the quarter-booklet loop are exactly the slot
contents of the underlying saddle-stitch layout, in order. -/
lemma quarterPlacements_contents (n : Nat) :
    (quarterPlacements n).map (fun pl => pl.content) =
      slotContents (calculateImposition n) := by
  rw [quarterPlacements_eq_expected, List.map_flatMap]
  unfold slotContents
  rw [← range_getElem_flatMap ((calculateImposition n).sheets)
    (fun s => [s.front.left, s.front.right, s.back.left, s.back.right])]
  congr 1
  funext k
  unfold expectedMiniSheetPlaces
  cases (calculateImposition n).sheets[k]? with
  | none => rfl
  | some s => rfl

/-! ## Claim theorems -/

/-- C2: for saddle-stitch, quarter-booklet, half-fold and mini-zine, every
source page 1..n appears in exactly one slot of the generated layout. -/
theorem c2_completeness (n p : Nat) (hp1 : 1 ≤ p) (hpn : p ≤ n) :
    (slotContents (calculateImposition n)).count (some p) = 1 ∧
    ((quarterPlacements n).map (fun pl => pl.content)).count (some p) = 1 ∧
    (n ≤ 4 → (halfFoldSlots n).count (some p) = 1) ∧
    (n ≤ 8 → (miniZineDrawnPages n).count p = 1) := by
  have hn1 : 1 ≤ n := le_trans hp1 hpn
  refine ⟨count_slotContents_eq_one hp1 hpn, ?_, ?_, ?_⟩
  · rw [quarterPlacements_contents]
    exact count_slotContents_eq_one hp1 hpn
  · intro hle
    interval_cases n <;> interval_cases p <;> decide
  · intro hle
    interval_cases n <;> interval_cases p <;> decide

/-- Witness for C2 at n = 4, p = 3. -/
theorem c2_completeness_witness :
    (1 ≤ 3 ∧ 3 ≤ 4) ∧
    ((slotContents (calculateImposition 4)).count (some 3) = 1 ∧
     ((quarterPlacements 4).map (fun pl => pl.content)).count (some 3) = 1 ∧
     (4 ≤ 4 → (halfFoldSlots 4).count (some 3) = 1) ∧
     (4 ≤ 8 → (miniZineDrawnPages 4).count 3 = 1)) :=
  ⟨by decide, c2_completeness 4 3 (by decide) (by decide)⟩

/-- C3: the saddle-stitch generator produces padded / 4 sheets following
the spread formula with blanks above n, and n = 1 yields one sheet whose
front is blank left, page 1 right, with a fully blank back. -/
theorem c3_saddle_stitch_formula (n : Nat) (_hn : 1 ≤ n) :
    (calculateImposition n).sheets.length = padToMultipleOf4 n / 4 ∧
    (∀ i, i < padToMultipleOf4 n / 4 →
      (calculateImposition n).sheets[i]? = some
        { front := { left := if padToMultipleOf4 n - 2 * i ≤ n
                       then some (padToMultipleOf4 n - 2 * i) else none
                     right := if 1 + 2 * i ≤ n then some (1 + 2 * i) else none }
          back := { left := if 2 + 2 * i ≤ n then some (2 + 2 * i) else none
                    right := if padToMultipleOf4 n - 1 - 2 * i ≤ n
                      then some (padToMultipleOf4 n - 1 - 2 * i) else none } }) ∧
    calculateImposition 1 =
      { sheets := [{ front := { left := none, right := some 1 }
                     back := { left := none, right := none } }]
        totalPages := 1, paddedPages := 4 } := by
  refine ⟨?_, ?_, ?_⟩
  · unfold calculateImposition
    dsimp only
    rw [List.length_map, List.length_range]
  · intro i hi
    unfold calculateImposition
    dsimp only
    rw [List.getElem?_map, List.getElem?_range hi]
    rfl
  · unfold calculateImposition
    rw [show padToMultipleOf4 1 = 4 from by rw [padToMultipleOf4_eq]]
    decide

/-- Witness for C3 at n = 1. -/
theorem c3_saddle_stitch_formula_witness :
    1 ≤ 1 ∧
    ((calculateImposition 1).sheets.length = padToMultipleOf4 1 / 4 ∧
     (∀ i, i < padToMultipleOf4 1 / 4 →
       (calculateImposition 1).sheets[i]? = some
         { front := { left := if padToMultipleOf4 1 - 2 * i ≤ 1
                        then some (padToMultipleOf4 1 - 2 * i) else none
                      right := if 1 + 2 * i ≤ 1 then some (1 + 2 * i) else none }
           back := { left := if 2 + 2 * i ≤ 1 then some (2 + 2 * i) else none
                     right := if padToMultipleOf4 1 - 1 - 2 * i ≤ 1
                       then some (padToMultipleOf4 1 - 1 - 2 * i) else none } }) ∧
     calculateImposition 1 =
       { sheets := [{ front := { left := none, right := some 1 }
                      back := { left := none, right := none } }]
         totalPages := 1, paddedPages := 4 }) :=
  ⟨by decide, c3_saddle_stitch_formula 1 (by decide)⟩

/-- C8: the padded page count is the least multiple of 4 at or above the
source count, shared by saddle-stitch and the quarter-booklet copy. -/
theorem c8_padding_minimality (n : Nat) (hn : 1 ≤ n) :
    4 ∣ padToMultipleOf4 n ∧
    n ≤ padToMultipleOf4 n ∧
    padToMultipleOf4 n - 4 < n ∧
    (∀ m, 4 ∣ m → n ≤ m → padToMultipleOf4 n ≤ m) ∧
    (calculateImposition n).paddedPages = padToMultipleOf4 n ∧
    quarterPadToMultipleOf4 n = padToMultipleOf4 n := by
  refine ⟨by rw [padToMultipleOf4_eq]; omega, by rw [padToMultipleOf4_eq]; omega,
    by rw [padToMultipleOf4_eq]; omega, ?_, rfl, rfl⟩
  intro m hm hnm
  obtain ⟨t, rfl⟩ := hm
  rw [padToMultipleOf4_eq]
  omega

/-- Witness for C8 at n = 5. -/
theorem c8_padding_minimality_witness :
    1 ≤ 5 ∧
    (4 ∣ padToMultipleOf4 5 ∧
     5 ≤ padToMultipleOf4 5 ∧
     padToMultipleOf4 5 - 4 < 5 ∧
     (∀ m, 4 ∣ m → 5 ≤ m → padToMultipleOf4 5 ≤ m) ∧
     (calculateImposition 5).paddedPages = padToMultipleOf4 5 ∧
     quarterPadToMultipleOf4 5 = padToMultipleOf4 5) :=
  ⟨by decide, c8_padding_minimality 5 (by decide)⟩

/-- C9: every non-blank page number placed by the saddle-stitch,
quarter-booklet, half-fold or mini-zine layout lies in 1..n, so the
0-indexed embedded-page lookup at the page number minus 1 is in bounds. -/
theorem c9_placed_pages_in_bounds (n p : Nat) (hn : 1 ≤ n) :
    (some p ∈ slotContents (calculateImposition n) → 1 ≤ p ∧ p - 1 < n) ∧
    (some p ∈ (quarterPlacements n).map (fun pl => pl.content) → 1 ≤ p ∧ p - 1 < n) ∧
    (n ≤ 4 → some p ∈ halfFoldSlots n → 1 ≤ p ∧ p - 1 < n) ∧
    (n ≤ 8 → p ∈ miniZineDrawnPages n → 1 ≤ p ∧ p - 1 < n) := by
  have hmain : some p ∈ slotContents (calculateImposition n) → 1 ≤ p ∧ p - 1 < n := by
    intro hmem
    rw [slotContents_calculateImposition] at hmem
    obtain ⟨x, hx, hguard⟩ := List.mem_map.mp hmem
    have h4 : 4 ∣ padToMultipleOf4 n := by rw [padToMultipleOf4_eq]; omega
    have hx1 := (mem_reverseImposition h4).mp hx
    by_cases hxn : x ≤ n
    · rw [if_pos hxn] at hguard
      have hxp : x = p := by injection hguard
      omega
    · rw [if_neg hxn] at hguard
      exact absurd hguard (by simp)
  refine ⟨hmain, ?_, ?_, ?_⟩
  · rw [quarterPlacements_contents]
    exact hmain
  · intro hle hmem
    interval_cases n <;> simp [halfFoldSlots, drawHalfContent] at hmem <;> omega
  · intro hle hmem
    interval_cases n <;>
      simp [miniZineDrawnPages, miniZineFrontDrawn, miniZineBackDrawn, FRONT_LAYOUT,
        BACK_LAYOUT] at hmem <;> omega

/-- Witness for C9 at n = 4, p = 2. -/
theorem c9_placed_pages_in_bounds_witness :
    1 ≤ 4 ∧
    ((some 2 ∈ slotContents (calculateImposition 4) → 1 ≤ 2 ∧ 2 - 1 < 4) ∧
     (some 2 ∈ (quarterPlacements 4).map (fun pl => pl.content) → 1 ≤ 2 ∧ 2 - 1 < 4) ∧
     (4 ≤ 4 → some 2 ∈ halfFoldSlots 4 → 1 ≤ 2 ∧ 2 - 1 < 4) ∧
     (4 ≤ 8 → 2 ∈ miniZineDrawnPages 4 → 1 ≤ 2 ∧ 2 - 1 < 4)) :=
  ⟨by decide, c9_placed_pages_in_bounds 4 2 (by decide)⟩

/-- C4: the quarter-booklet loop places mini-sheet k on physical sheet
k / 2, its front halves on the physical front face and its back halves on
the physical back face, in the top-row quadrant for even k and the
bottom-row quadrant for odd k, over ceil(miniSheetCount / 2) physical
sheets. -/
theorem c4_quarter_booklet_mapping (n : Nat) (_hn : 1 ≤ n) :
    quarterPlacements n =
      (List.range (calculateImposition n).sheets.length).flatMap
        (expectedMiniSheetPlaces (calculateImposition n)) ∧
    physicalSheetCount (calculateImposition n).sheets.length =
      ((calculateImposition n).sheets.length + 1) / 2 :=
  ⟨quarterPlacements_eq_expected n, by unfold physicalSheetCount; rw [nat_ceil_div2]⟩

/-- Witness for C4 at n = 8 (two mini-sheets on one physical sheet). -/
theorem c4_quarter_booklet_mapping_witness :
    1 ≤ 8 ∧
    (quarterPlacements 8 =
      (List.range (calculateImposition 8).sheets.length).flatMap
        (expectedMiniSheetPlaces (calculateImposition 8)) ∧
     physicalSheetCount (calculateImposition 8).sheets.length =
      ((calculateImposition 8).sheets.length + 1) / 2) :=
  ⟨by decide, c4_quarter_booklet_mapping 8 (by decide)⟩

/-- C5 counterexample: a square page (width = height = 612) is not
landscape in the sense of the claim (width > height fails), yet the
resolver raises no format-mismatch error and returns output; and for
imposedPageCount = 3 with a portrait page the derived linear count 6 is
not a multiple of 4, yet the reported error is the format mismatch, not
the invalid-imposition error. -/
theorem c5_validation_counterexample :
    (¬ (612 : ℚ) > 612 ∧
      unImposeResolve 4 612 612 = .ok (unImposeExtract 8)) ∧
    ((3 * 2) % 4 ≠ 0 ∧
      unImposeResolve 3 500 600 = .error .formatMismatch) := by
  refine ⟨⟨by norm_num, ?_⟩, ⟨by decide, ?_⟩⟩
  · unfold unImposeResolve
    norm_num
  · unfold unImposeResolve
    norm_num

/-- C5 amended: for at least one imposed page, the resolver reports the
format mismatch exactly when width is strictly below height (a square
page passes), reports the invalid imposition exactly when the page is not
portrait and the derived linear count imposedPageCount * 2 is not a
multiple of 4, and otherwise raises no error and returns the extracted
pages; the checks precede all output. -/
theorem c5_validation_amended (imposedPageCount : Nat) (width height : ℚ)
    (hc : 1 ≤ imposedPageCount) :
    (unImposeResolve imposedPageCount width height = .error .formatMismatch ↔
      width < height) ∧
    (unImposeResolve imposedPageCount width height = .error .malformedImposition ↔
      (height ≤ width ∧ (imposedPageCount * 2) % 4 ≠ 0)) ∧
    (height ≤ width → (imposedPageCount * 2) % 4 = 0 →
      unImposeResolve imposedPageCount width height =
        .ok (unImposeExtract (imposedPageCount * 2))) := by
  unfold unImposeResolve
  rw [if_neg (by omega : ¬ imposedPageCount = 0)]
  by_cases hw : width < height
  · rw [if_pos hw]
    refine ⟨⟨fun _ => hw, fun _ => rfl⟩, ⟨fun h => ?_, fun h => ?_⟩, fun hge _ => ?_⟩
    · exact absurd h (by simp)
    · exact absurd hw (not_lt.mpr h.1)
    · exact absurd hw (not_lt.mpr hge)
  · rw [if_neg hw]
    dsimp only
    by_cases hm : (imposedPageCount * 2) % 4 = 0
    · rw [if_neg (show ¬ imposedPageCount * 2 % 4 ≠ 0 from by omega)]
      refine ⟨⟨fun h => absurd h (by simp), fun hlt => absurd hlt hw⟩,
        ⟨fun h => absurd h (by simp), fun h => absurd h.2 (by omega)⟩,
        fun _ _ => rfl⟩
    · rw [if_pos (show imposedPageCount * 2 % 4 ≠ 0 from hm)]
      refine ⟨⟨fun h => absurd h (by simp), fun hlt => absurd hlt hw⟩,
        ⟨fun _ => ⟨not_lt.mp hw, hm⟩, fun _ => rfl⟩,
        fun _ hmod => absurd hmod hm⟩

/-- Witness for the amended C5 at imposedPageCount = 2, width 600,
height 500. -/
theorem c5_validation_amended_witness :
    1 ≤ 2 ∧
    ((unImposeResolve 2 600 500 = .error .formatMismatch ↔ (600 : ℚ) < 500) ∧
     (unImposeResolve 2 600 500 = .error .malformedImposition ↔
       ((500 : ℚ) ≤ 600 ∧ (2 * 2) % 4 ≠ 0)) ∧
     ((500 : ℚ) ≤ 600 → (2 * 2) % 4 = 0 →
       unImposeResolve 2 600 500 = .ok (unImposeExtract (2 * 2)))) :=
  ⟨by decide, c5_validation_amended 2 600 500 (by decide)⟩

/-- C6: the mini-zine front face holds, in left-to-right panel order,
pages 4, 5, 8, 1 with the panels at indices 0 and 2 rotated, the back
face holds 2, 7, 6, 3 with the panels at indices 1 and 3 rotated, and a
page number above n is left blank. -/
theorem c6_minizine_fixed_tables (n : Nat) (h1 : 1 ≤ n) (h8 : n ≤ 8) :
    panelAt (miniZineFrontDrawn n) 0 = (if 4 ≤ n then some (4, true) else none) ∧
    panelAt (miniZineFrontDrawn n) 1 = (if 5 ≤ n then some (5, false) else none) ∧
    panelAt (miniZineFrontDrawn n) 2 = (if 8 ≤ n then some (8, true) else none) ∧
    panelAt (miniZineFrontDrawn n) 3 = some (1, false) ∧
    panelAt (miniZineBackDrawn n) 0 = (if 2 ≤ n then some (2, false) else none) ∧
    panelAt (miniZineBackDrawn n) 1 = (if 7 ≤ n then some (7, true) else none) ∧
    panelAt (miniZineBackDrawn n) 2 = (if 6 ≤ n then some (6, false) else none) ∧
    panelAt (miniZineBackDrawn n) 3 = (if 3 ≤ n then some (3, true) else none) := by
  interval_cases n <;> decide

/-- Witness for C6 at n = 8. -/
theorem c6_minizine_fixed_tables_witness :
    (1 ≤ 8 ∧ 8 ≤ 8) ∧
    (panelAt (miniZineFrontDrawn 8) 0 = (if 4 ≤ 8 then some (4, true) else none) ∧
     panelAt (miniZineFrontDrawn 8) 1 = (if 5 ≤ 8 then some (5, false) else none) ∧
     panelAt (miniZineFrontDrawn 8) 2 = (if 8 ≤ 8 then some (8, true) else none) ∧
     panelAt (miniZineFrontDrawn 8) 3 = some (1, false) ∧
     panelAt (miniZineBackDrawn 8) 0 = (if 2 ≤ 8 then some (2, false) else none) ∧
     panelAt (miniZineBackDrawn 8) 1 = (if 7 ≤ 8 then some (7, true) else none) ∧
     panelAt (miniZineBackDrawn 8) 2 = (if 6 ≤ 8 then some (6, false) else none) ∧
     panelAt (miniZineBackDrawn 8) 3 = (if 3 ≤ 8 then some (3, true) else none)) :=
  ⟨by decide, c6_minizine_fixed_tables 8 (by decide) (by decide)⟩

/-- C7: for n up to 4 the accordion is a single one-sided sheet whose
panel i holds 0-indexed page i (1-indexed page i + 1) rotated exactly on
odd i, with min n 4 panels per side; for n of 5 to 8 the front holds
pages 1-4 the same way and the back holds 0-indexed page 4 + i at panel
backPanelCount - 1 - i, rotated exactly on even i. -/
theorem c7_accordion_layout (n : Nat) (h1 : 1 ≤ n) (h8 : n ≤ 8) :
    (n ≤ 4 →
      accordionPlacements n =
        (List.range n).map (fun i => (⟨.front, i, n, i, i % 2 == 1⟩ : AccPanel)) ∧
      min n 4 = n) ∧
    (5 ≤ n →
      accordionPlacements n =
        (List.range 4).map (fun i => (⟨.front, i, 4, i, i % 2 == 1⟩ : AccPanel)) ++
        (List.range (n - 4)).map (fun i =>
          (⟨.back, n - 4 - 1 - i, n - 4, 4 + i, i % 2 == 0⟩ : AccPanel))) := by
  interval_cases n <;>
    exact ⟨fun h => by first | exact ⟨by decide, by decide⟩ | exact absurd h (by decide),
           fun h => by first | decide | exact absurd h (by decide)⟩

/-- Witness for C7 at n = 8 (double-sided branch). -/
theorem c7_accordion_layout_witness :
    (1 ≤ 8 ∧ 8 ≤ 8) ∧
    ((8 ≤ 4 →
      accordionPlacements 8 =
        (List.range 8).map (fun i => (⟨.front, i, 8, i, i % 2 == 1⟩ : AccPanel)) ∧
      min 8 4 = 8) ∧
     (5 ≤ 8 →
      accordionPlacements 8 =
        (List.range 4).map (fun i => (⟨.front, i, 4, i, i % 2 == 1⟩ : AccPanel)) ++
        (List.range (8 - 4)).map (fun i =>
          (⟨.back, 8 - 4 - 1 - i, 8 - 4, 4 + i, i % 2 == 0⟩ : AccPanel)))) :=
  ⟨by decide, c7_accordion_layout 8 (by decide) (by decide)⟩

/-- A panel in the top row draws its content entirely inside the top half
of the face, for any positive source page size. -/
lemma miniZine_top_half (pos : PanelPosition) (hrow : pos.row = 1)
    (srcWidth srcHeight : ℚ) (hw : 0 < srcWidth) (hh : 0 < srcHeight) :
    PANEL_HEIGHT ≤ (drawCallYInterval (miniZineDrawCall pos srcWidth srcHeight)).1 ∧
    (drawCallYInterval (miniZineDrawCall pos srcWidth srcHeight)).2 ≤ 2 * PANEL_HEIGHT := by
  have hPW : (0 : ℚ) ≤ PANEL_WIDTH := by norm_num [PANEL_WIDTH, LETTER_WIDTH]
  have hPH : (0 : ℚ) ≤ PANEL_HEIGHT := by norm_num [PANEL_HEIGHT, LETTER_HEIGHT]
  unfold miniZineDrawCall drawCallYInterval
  set scale := min (PANEL_WIDTH / srcWidth) (PANEL_HEIGHT / srcHeight) with hscale
  have hs0 : 0 ≤ scale := le_min (div_nonneg hPW hw.le) (div_nonneg hPH hh.le)
  have hsh0 : 0 ≤ srcHeight * scale := mul_nonneg hh.le hs0
  have hshPH : srcHeight * scale ≤ PANEL_HEIGHT := by
    calc srcHeight * scale ≤ srcHeight * (PANEL_HEIGHT / srcHeight) :=
          mul_le_mul_of_nonneg_left (min_le_right _ _) hh.le
      _ = PANEL_HEIGHT := mul_div_cancel₀ _ (ne_of_gt hh)
  rcases pos with ⟨c, r, rot⟩
  simp only at hrow
  subst hrow
  cases rot <;>
    simp only [Bool.false_eq_true, if_false, if_true, Nat.cast_one, one_mul,
      Nat.cast_ofNat] <;>
    constructor <;>
    dsimp only <;>
    linarith

/-- C10: every mini-zine panel position sits in the top row, its panel y
origin is PANEL_HEIGHT, and for any positive source page size the drawn
content lies entirely between PANEL_HEIGHT and twice PANEL_HEIGHT, so the
bottom half of each face never receives content. -/
theorem c10_minizine_top_row (e : Nat × PanelPosition)
    (he : e ∈ FRONT_LAYOUT ++ BACK_LAYOUT)
    (srcWidth srcHeight : ℚ) (hw : 0 < srcWidth) (hh : 0 < srcHeight) :
    e.2.row = 1 ∧
    ((e.2.row : ℚ)) * PANEL_HEIGHT = PANEL_HEIGHT ∧
    PANEL_HEIGHT ≤ (drawCallYInterval (miniZineDrawCall e.2 srcWidth srcHeight)).1 ∧
    (drawCallYInterval (miniZineDrawCall e.2 srcWidth srcHeight)).2 ≤ 2 * PANEL_HEIGHT := by
  have hrow : e.2.row = 1 := by fin_cases he <;> rfl
  exact ⟨hrow, by rw [hrow, Nat.cast_one, one_mul],
    miniZine_top_half e.2 hrow srcWidth srcHeight hw hh⟩

/-- Witness for C10 at the page-4 front panel and a 612 by 792 source
page. -/
theorem c10_minizine_top_row_witness :
    (((4, (⟨0, 1, true⟩ : PanelPosition)) ∈ FRONT_LAYOUT ++ BACK_LAYOUT) ∧
      (0 : ℚ) < 612 ∧ (0 : ℚ) < 792) ∧
    ((4, (⟨0, 1, true⟩ : PanelPosition)).2.row = 1 ∧
     (((4, (⟨0, 1, true⟩ : PanelPosition)).2.row : ℚ)) * PANEL_HEIGHT = PANEL_HEIGHT ∧
     PANEL_HEIGHT ≤
       (drawCallYInterval (miniZineDrawCall (4, (⟨0, 1, true⟩ : PanelPosition)).2 612 792)).1 ∧
     (drawCallYInterval (miniZineDrawCall (4, (⟨0, 1, true⟩ : PanelPosition)).2 612 792)).2 ≤
       2 * PANEL_HEIGHT) :=
  ⟨⟨by decide, by norm_num, by norm_num⟩,
   c10_minizine_top_row (4, ⟨0, 1, true⟩) (by decide) 612 792 (by norm_num) (by norm_num)⟩

end ZinePrep
